import Mathlib

/-!
# Verification of the parallel orchestrator core

A shallow embedding of `src/parallel_orchestrator.py` (the `ParallelOrchestrator`
class): the feature catalog, the coding/testing agent pools, retry accounting,
readiness computation, admission control, completion handling and shutdown.

Modelling conventions:
* The catalog (a SQLite database in the source) is a `List Feature`; each
  catalog query (`session.query(Feature)...`) becomes a pure function over that
  list.  `query(...).first()` becomes `List.find?`, and an ORM in-place update
  of the found row becomes `updateFirst`.
* Python dicts keyed by `int` become association lists; `dict.get(k, d)`
  becomes `(List.lookup k ).getD d`, `dict[k] = v` becomes `assocSet`,
  `dict.pop(k, None)` becomes a filter on the key.
* Effects whose outcome is decided outside the orchestrator (whether
  `subprocess.Popen` raises, which passing feature the random query picks,
  which pid the child gets) are oracle parameters of the transformer.
* `compute_scheduling_scores` lives in `api/dependency_resolver`, outside the
  source under verification; the spec leaves its formula an external contract,
  so the score map is a parameter (`scores`) everywhere the source calls it.
-/

namespace ParallelOrchestrator

/-! ## Constants (source lines 121-126) -/

def MAX_PARALLEL_AGENTS : Nat := 5

def MAX_TOTAL_AGENTS : Nat := 10

def DEFAULT_CONCURRENCY : Nat := 3

def MAX_FEATURE_RETRIES : Nat := 3

/-! ## The feature record

Fields of the catalog's `Feature` rows that the orchestrator core reads
(`id`, `priority`, `dependencies`, `passes`, `in_progress`); display-only
fields such as `name` are omitted. -/

structure Feature where
  id : Nat
  priority : Int
  dependencies : List Nat
  passes : Bool
  in_progress : Bool
deriving DecidableEq, Repr

/-! ## Association-list helpers mirroring Python dict operations -/

/-- Replace the value at the first occurrence of key `k`, or append the binding
if the key is absent: Python `d[k] = v`. -/
def assocSet {α : Type} : List (Nat × α) → Nat → α → List (Nat × α)
  | [], k, v => [(k, v)]
  | (k', v') :: rest, k, v =>
    if k' == k then (k, v) :: rest else (k', v') :: assocSet rest k v

/-- Apply `g` to the first element satisfying `p` (an ORM row found with
`.first()` and mutated in place). -/
def updateFirst {α : Type} (p : α → Bool) (g : α → α) : List α → List α
  | [] => []
  | x :: xs => if p x then g x :: xs else x :: updateFirst p g xs

/-! ## Orchestrator state (constructor, source lines 138-195) -/

structure OrchState where
  /-- The feature catalog (the project database). -/
  features : List Feature
  /-- Coding pool: feature ids with a live coding agent (`running_coding_agents` keys). -/
  running_coding_agents : List Nat
  /-- Testing pool: `pid ↦ feature_id` (`running_testing_agents`). -/
  running_testing_agents : List (Nat × Nat)
  /-- Feature ids with a registered abort event (`abort_events` keys). -/
  abort_events : List Nat
  /-- Retry accounting: `feature_id ↦ failure count` (`_failure_counts`). -/
  failure_counts : List (Nat × Nat)
  max_concurrency : Nat
  testing_agent_ratio : Nat
  yolo_mode : Bool
  is_running : Bool
  /-- The agent-completed wakeup event (`_agent_completed_event`). -/
  agent_completed_event : Bool
deriving DecidableEq, Repr

/-- `ParallelOrchestrator.__init__`: pools empty, `max_concurrency` clamped to
`[1, MAX_PARALLEL_AGENTS]`, `testing_agent_ratio` clamped to `[0, 3]`. -/
def OrchState.mkInit (features0 : List Feature) (max_concurrency testing_agent_ratio : Int)
    (yolo : Bool) : OrchState :=
  { features := features0
    running_coding_agents := []
    running_testing_agents := []
    abort_events := []
    failure_counts := []
    max_concurrency := (min (max max_concurrency 1) (MAX_PARALLEL_AGENTS : Int)).toNat
    testing_agent_ratio := (min (max testing_agent_ratio 0) 3).toNat
    yolo_mode := yolo
    is_running := false
    agent_completed_event := false }

/-- `self._failure_counts.get(feature_id, 0)`. -/
def failureCount (st : OrchState) (fid : Nat) : Nat :=
  (st.failure_counts.lookup fid).getD 0

/-! ## Catalog queries -/

/-- `{f.id for f in all_features if f.passes}` (source line 276). -/
def passingIds (features : List Feature) : List Nat :=
  (features.filter (fun f => f.passes)).map (fun f => f.id)

/-- Modelled from the spec: `are_dependencies_satisfied` is imported from
`api/dependency_resolver`, which is not part of the source under verification.
Per spec §4.1 it is "true iff every id in `feature.dependencies` is in
`passing_ids`. Missing dependency ids (dangling references) are treated as
unsatisfied." The `all_features` argument mirrors the Python signature; the
spec's contract does not consult it. -/
def are_dependencies_satisfied (f : Feature) (all_features : List Feature)
    (passing_ids : List Nat) : Bool :=
  let _ := all_features
  f.dependencies.all (fun d => passing_ids.contains d)

/-! ## Scheduling order

`ready.sort(key=lambda f: (-scores.get(f["id"], 0), f["priority"], f["id"]))`
(source lines 259 and 304). -/

/-- `scores.get(fid, 0)`. -/
def scoreOf (scores : List (Nat × Int)) (fid : Nat) : Int :=
  (scores.lookup fid).getD 0

/-- The Python sort key tuple `(-score, priority, id)`. -/
def schedKey (scores : List (Nat × Int)) (f : Feature) : Int × Int × Int :=
  (-(scoreOf scores f.id), f.priority, (f.id : Int))

/-- Lexicographic `≤` on key tuples, as Python compares them. -/
def keyLe : Int × Int × Int → Int × Int × Int → Bool
  | (a1, b1, c1), (a2, b2, c2) =>
    decide (a1 < a2) ||
      (a1 == a2 && (decide (b1 < b2) || (b1 == b2 && decide (c1 ≤ c2))))

def schedLe (scores : List (Nat × Int)) (f g : Feature) : Bool :=
  keyLe (schedKey scores f) (schedKey scores g)

def sortBySchedKey (scores : List (Nat × Int)) (l : List Feature) : List Feature :=
  l.mergeSort (schedLe scores)

/-! ## Readiness and completion queries (source lines 226-380) -/

/-- The filter loop of `get_ready_features` (source lines 278-300): skip
passing, in-progress, already-running, permanently-failed, and
dependency-blocked features. -/
def readyFilter (st : OrchState) : List Feature :=
  st.features.filter (fun f =>
    !f.passes && !f.in_progress &&
    !(st.running_coding_agents.contains f.id) &&
    decide (failureCount st f.id < MAX_FEATURE_RETRIES) &&
    are_dependencies_satisfied f st.features (passingIds st.features))

/-- `get_ready_features` (source lines 264-331): filter, then sort by
`(-score, priority, id)`. -/
def get_ready_features (scores : List (Nat × Int)) (st : OrchState) : List Feature :=
  sortBySchedKey scores (readyFilter st)

/-- The filter loop of `get_resumable_features` (source lines 240-254):
`in_progress ∧ ¬passes`, not running here, not permanently failed. -/
def resumableFilter (st : OrchState) : List Feature :=
  st.features.filter (fun f =>
    f.in_progress && !f.passes &&
    !(st.running_coding_agents.contains f.id) &&
    decide (failureCount st f.id < MAX_FEATURE_RETRIES))

/-- `get_resumable_features` (source lines 226-262). -/
def get_resumable_features (scores : List (Nat × Int)) (st : OrchState) : List Feature :=
  sortBySchedKey scores (resumableFilter st)

/-- `get_all_complete` (source lines 333-371): an empty catalog is "not
complete" (initialization needed); otherwise complete iff no feature is
pending, where pending means `¬passes` and below the retry cap. -/
def get_all_complete (st : OrchState) : Bool :=
  if st.features.length == 0 then false
  else
    let pending_count := st.features.countP (fun f =>
      !f.passes && decide (failureCount st f.id < MAX_FEATURE_RETRIES))
    pending_count == 0

/-- `get_passing_count` (source lines 373-380). -/
def get_passing_count (st : OrchState) : Nat :=
  (st.features.filter (fun f => f.passes)).length

/-! ## Starting a coding agent (source lines 439-553) -/

/-- Set `in_progress` on the first catalog row with the given id
(`session.query(Feature).filter(Feature.id == feature_id).first()` followed by
an in-place assignment and commit). -/
def setInProgressFirst (features : List Feature) (fid : Nat) (b : Bool) : List Feature :=
  updateFirst (fun f => f.id == fid) (fun f => { f with in_progress := b }) features

/-- `_spawn_coding_agent` (source lines 491-553).  `spawnOk` is the oracle for
whether `subprocess.Popen` succeeds.  On spawn failure the claim is released
(`in_progress := false`) and an error returned; on success the feature id is
inserted into the coding pool and the abort-event map. -/
def spawn_coding_agent (st : OrchState) (fid : Nat) (spawnOk : Bool) :
    (Bool × String) × OrchState :=
  if !spawnOk then
    ((false, "Failed to start agent"),
     { st with features := setInProgressFirst st.features fid false })
  else
    ((true, "Started feature"),
     { st with
        running_coding_agents := fid :: st.running_coding_agents
        abort_events := fid :: st.abort_events })

/-- `start_feature` (source lines 439-489): admission control under the lock
(duplicate id, `max_concurrency`, `MAX_TOTAL_AGENTS`), then the catalog claim
(or resume verification), then the spawn. -/
def start_feature (st : OrchState) (fid : Nat) (resume : Bool) (spawnOk : Bool) :
    (Bool × String) × OrchState :=
  if st.running_coding_agents.contains fid then
    ((false, "Feature already running"), st)
  else if st.max_concurrency ≤ st.running_coding_agents.length then
    ((false, "At max concurrency"), st)
  else if MAX_TOTAL_AGENTS ≤ st.running_coding_agents.length + st.running_testing_agents.length then
    ((false, "At max total agents"), st)
  else
    match st.features.find? (fun f => f.id == fid) with
    | none => ((false, "Feature not found"), st)
    | some feature =>
      if feature.passes then ((false, "Feature already complete"), st)
      else if resume then
        if !feature.in_progress then ((false, "Feature not in progress, cannot resume"), st)
        else spawn_coding_agent st fid spawnOk
      else if feature.in_progress then ((false, "Feature already in progress"), st)
      else spawn_coding_agent
        { st with features := setInProgressFirst st.features fid true } fid spawnOk

/-! ## Testing-agent maintenance (source lines 382-437 and 555-636) -/

/-- Per-attempt oracle for `_spawn_testing_agent`: which passing feature the
random query returns (`none` = no passing feature available), whether
`subprocess.Popen` succeeds, and the child pid. -/
structure TestingOracle where
  picked : Option Nat
  spawnOk : Bool
  pid : Nat

/-- `_spawn_testing_agent` (source lines 555-636): first locked capacity check
(testing pool vs `max_concurrency`, then the total cap), feature selection
outside the lock, then a second locked section that re-checks only the testing
bound, performs the spawn, and inserts `pid ↦ feature_id`. -/
def spawn_testing_agent (st : OrchState) (o : TestingOracle) : (Bool × String) × OrchState :=
  if st.max_concurrency ≤ st.running_testing_agents.length then
    ((false, "At max testing agents"), st)
  else if MAX_TOTAL_AGENTS ≤ st.running_coding_agents.length + st.running_testing_agents.length then
    ((false, "At max total agents"), st)
  else
    match o.picked with
    | none => ((false, "No features available for testing"), st)
    | some fid =>
      if st.max_concurrency ≤ st.running_testing_agents.length then
        ((false, "At max testing agents"), st)
      else if !o.spawnOk then ((false, "Failed to start testing agent"), st)
      else ((true, "Started testing agent"),
            { st with running_testing_agents := assocSet st.running_testing_agents o.pid fid })

/-- The `while True` spawning loop of `_maintain_testing_agents` (source lines
412-437): under the lock, stop once the testing pool reaches
`testing_agent_ratio` or the total cap; otherwise attempt one spawn, and keep
looping only while spawns succeed.  The oracle list bounds the attempts. -/
def maintainLoop (st : OrchState) : List TestingOracle → OrchState
  | [] => st
  | o :: rest =>
    if st.testing_agent_ratio ≤ st.running_testing_agents.length then st
    else if MAX_TOTAL_AGENTS ≤ st.running_coding_agents.length + st.running_testing_agents.length then st
    else if (spawn_testing_agent st o).1.1 then maintainLoop (spawn_testing_agent st o).2 rest
    else (spawn_testing_agent st o).2

/-- `_maintain_testing_agents` (source lines 382-437): no-op in YOLO mode, with
ratio 0, with no passing features, or when all features are complete. -/
def maintain_testing_agents (st : OrchState) (oracle : List TestingOracle) : OrchState :=
  if st.yolo_mode || st.testing_agent_ratio == 0 then st
  else if get_passing_count st == 0 then st
  else if get_all_complete st then st
  else maintainLoop st oracle

/-! ## Completion handlers (source lines 784-867) -/

/-- Pool removal on coding-agent exit (source lines 822-824):
`running_coding_agents.pop(feature_id, None)` and `abort_events.pop(...)`. -/
def poolRemoveCoding (st : OrchState) (fid : Nat) : OrchState :=
  { st with
      running_coding_agents := st.running_coding_agents.filter (fun i => !(i == fid))
      abort_events := st.abort_events.filter (fun i => !(i == fid)) }

/-- Catalog repair on coding-agent exit (source lines 831-845): after a fresh
read, if the feature is still `in_progress ∧ ¬passes`, clear `in_progress`. -/
def clearStaleInProgress (st : OrchState) (fid : Nat) : OrchState :=
  match st.features.find? (fun f => f.id == fid) with
  | some feature =>
    if feature.in_progress && !feature.passes then
      { st with features := setInProgressFirst st.features fid false }
    else st
  | none => st

/-- Retry accounting on coding-agent exit (source lines 847-855): a non-zero
exit code increments the feature's failure count. -/
def recordFailure (st : OrchState) (fid : Nat) (return_code : Int) : OrchState :=
  if return_code ≠ 0 then
    { st with failure_counts := assocSet st.failure_counts fid (failureCount st fid + 1) }
  else st

/-- `_signal_agent_completed` (source lines 738-757). -/
def signalAgentCompleted (st : OrchState) : OrchState :=
  { st with agent_completed_event := true }

/-- Coding-agent branch of `_on_agent_complete` (source lines 817-864): pool
removal, then catalog repair, then retry accounting, then the completion
signal — in that order. -/
def on_coding_agent_complete (st : OrchState) (fid : Nat) (return_code : Int) : OrchState :=
  signalAgentCompleted (recordFailure (clearStaleInProgress (poolRemoveCoding st fid) fid) fid return_code)

/-- The states after each successive atomic action of the coding-agent branch
of `_on_agent_complete`, starting from the entry state: used to reason about
what an observer can see at each point of the handler. -/
def onCodingCompleteStates (st : OrchState) (fid : Nat) (return_code : Int) : List OrchState :=
  let s1 := poolRemoveCoding st fid
  let s2 := clearStaleInProgress s1 fid
  let s3 := recordFailure s2 fid return_code
  let s4 := signalAgentCompleted s3
  [st, s1, s2, s3, s4]

/-- Testing-agent branch of `_on_agent_complete` (source lines 802-815):
remove the pid from the testing pool, then signal completion. -/
def on_testing_agent_complete (st : OrchState) (pid : Nat) : OrchState :=
  signalAgentCompleted
    { st with running_testing_agents := st.running_testing_agents.filter (fun p => !(p.1 == pid)) }

/-! ## Shutdown (source lines 869-913) -/

/-- `stop_feature` (source lines 869-887): error if the id is not in the coding
pool; otherwise set the abort event and kill the process tree.  Neither action
mutates the pools or the catalog — the pool entry is removed only later, by
`_on_agent_complete`, when the reader thread finishes. -/
def stop_feature (st : OrchState) (fid : Nat) : (Bool × String) × OrchState :=
  if !(st.running_coding_agents.contains fid) then ((false, "Feature not running"), st)
  else ((true, "Stopped feature"), st)

/-- `stop_all` (source lines 889-913): set `is_running := false`, call
`stop_feature` on every coding-pool id, kill every testing agent's tree, and
clear the testing pool. -/
def stopAllCodingPhase (st : OrchState) : OrchState :=
  st.running_coding_agents.foldl (fun s fid => (stop_feature s fid).2) st

def stop_all (st : OrchState) : OrchState :=
  { stopAllCodingPhase { st with is_running := false } with running_testing_agents := [] }

/-! ## The transition system

One step per orchestrator operation, plus environment steps: external
processes may rewrite the catalog (the agents commit to the same database),
the scheduler clears the completion event on wakeup, and `run_loop` sets
`is_running`. -/

inductive Step : OrchState → OrchState → Prop where
  | start (st : OrchState) (fid : Nat) (resume spawnOk : Bool) :
      Step st (start_feature st fid resume spawnOk).2
  | maintain (st : OrchState) (oracle : List TestingOracle) :
      Step st (maintain_testing_agents st oracle)
  | codingComplete (st : OrchState) (fid : Nat) (return_code : Int) :
      Step st (on_coding_agent_complete st fid return_code)
  | testingComplete (st : OrchState) (pid : Nat) :
      Step st (on_testing_agent_complete st pid)
  | stopOne (st : OrchState) (fid : Nat) :
      Step st (stop_feature st fid).2
  | stopEverything (st : OrchState) :
      Step st (stop_all st)
  | envCatalogWrite (st : OrchState) (features2 : List Feature) :
      Step st { st with features := features2 }
  | clearEvent (st : OrchState) :
      Step st { st with agent_completed_event := false }
  | setRunning (st : OrchState) :
      Step st { st with is_running := true }

inductive Reachable : OrchState → Prop where
  | init (features0 : List Feature) (mc ratio : Int) (yolo : Bool) :
      Reachable (OrchState.mkInit features0 mc ratio yolo)
  | step (st st2 : OrchState) : Reachable st → Step st st2 → Reachable st2

/-! ## The pool-capacity invariant -/

/-- The capacity invariant maintained by every orchestrator operation. -/
def PoolInv (st : OrchState) : Prop :=
  st.running_coding_agents.length ≤ st.max_concurrency ∧
  st.running_testing_agents.length ≤ st.testing_agent_ratio ∧
  st.running_testing_agents.length ≤ st.max_concurrency ∧
  st.running_coding_agents.length + st.running_testing_agents.length ≤ MAX_TOTAL_AGENTS ∧
  st.testing_agent_ratio ≤ 3 ∧
  1 ≤ st.max_concurrency ∧ st.max_concurrency ≤ MAX_PARALLEL_AGENTS

/-! ## Observers -/

/-- True when the feature with the given id is recorded as claimed but not yet
passing (`in_progress ∧ ¬passes`) — the "stale claim" an observer must never
see after being woken by the completion event. -/
def staleInProgress (st : OrchState) (fid : Nat) : Bool :=
  match st.features.find? (fun f => f.id == fid) with
  | some f => f.in_progress && !f.passes
  | none => false

/-! ## Lock/spawn structure of the two spawn paths (for the concurrency claim)

A syntactic transcription of the order of lock acquisitions, capacity checks,
spawn I/O and pool insertions in `start_feature` + `_spawn_coding_agent`
(source lines 449-547) and `_spawn_testing_agent` (source lines 562-629). -/

inductive SpawnEvent where
  /-- `with self._lock:` entry. -/
  | acquireLock
  /-- end of a `with self._lock:` block. -/
  | releaseLock
  /-- comparison of the pool's own size against its cap. -/
  | checkPoolCap
  /-- comparison of `|coding|+|testing|` against `MAX_TOTAL_AGENTS`. -/
  | checkTotalCap
  /-- catalog claim / verification I/O. -/
  | dbClaim
  /-- `_get_random_passing_feature()` catalog I/O. -/
  | pickFeature
  /-- `subprocess.Popen(...)`. -/
  | spawnSyscall
  /-- insertion of the new child into the pool dict. -/
  | insertPool
  /-- starting the output-reader thread. -/
  | startReader
deriving DecidableEq, Repr

/-- `start_feature` + `_spawn_coding_agent`: first locked block checks the
duplicate id, the pool cap and the total cap (lines 449-457); the catalog claim
(lines 460-479) and `Popen` (line 525) run outside the lock; the second locked
block (lines 538-540) only inserts — it re-checks nothing. -/
def codingSpawnEvents : List SpawnEvent :=
  [.acquireLock, .checkPoolCap, .checkTotalCap, .releaseLock,
   .dbClaim,
   .spawnSyscall,
   .acquireLock, .insertPool, .releaseLock,
   .startReader]

/-- `_spawn_testing_agent`: first locked block checks the pool cap and the
total cap (lines 563-571); the feature pick (line 574) runs outside the lock;
the second locked block (lines 582-622) re-checks only the pool cap (lines
584-586), then performs `Popen` (line 614) and the insertion (line 621) while
still holding the lock. -/
def testingSpawnEvents : List SpawnEvent :=
  [.acquireLock, .checkPoolCap, .checkTotalCap, .releaseLock,
   .pickFeature,
   .acquireLock, .checkPoolCap, .spawnSyscall, .insertPool, .releaseLock,
   .startReader]

/-- Annotate each event with the lock-hold depth at which it executes. -/
def annotateLock : Nat → List SpawnEvent → List (SpawnEvent × Nat)
  | _, [] => []
  | d, e :: rest =>
    match e with
    | .acquireLock => (e, d + 1) :: annotateLock (d + 1) rest
    | .releaseLock => (e, d - 1) :: annotateLock (d - 1) rest
    | _ => (e, d) :: annotateLock d rest

/-- Every spawn-I/O event executes with the lock not held. -/
def spawnOutsideLock (evs : List SpawnEvent) : Bool :=
  (annotateLock 0 evs).all (fun p => !(p.1 == SpawnEvent.spawnSyscall) || p.2 == 0)

/-- Every pool-insertion event executes with the lock held. -/
def insertUnderLock (evs : List SpawnEvent) : Bool :=
  (annotateLock 0 evs).all (fun p => !(p.1 == SpawnEvent.insertPool) || decide (0 < p.2))

/-- The events of the locked section that performs the insertion: everything
after the last lock acquisition preceding the first pool insertion. -/
def insertSection (evs : List SpawnEvent) : List SpawnEvent :=
  ((evs.takeWhile (fun e => !(e == SpawnEvent.insertPool))).reverse.takeWhile
    (fun e => !(e == SpawnEvent.acquireLock))).reverse

/-- The locked section performing the insertion re-checks some capacity bound
before inserting. -/
def reCheckBeforeInsert (evs : List SpawnEvent) : Bool :=
  (insertSection evs).any (fun e => e == SpawnEvent.checkPoolCap || e == SpawnEvent.checkTotalCap)

/-- The spawn discipline stated by the spec (§5): "Spawning I/O happens
outside the lock to avoid holding it across syscalls, then the newly spawned
child is inserted under the lock with a re-check of capacity."  This
definition follows the spec's words, to be compared with the transcriptions
of the source. -/
def specSpawnDiscipline (evs : List SpawnEvent) : Bool :=
  spawnOutsideLock evs && insertUnderLock evs && reCheckBeforeInsert evs

/-! ## Concrete states (spec scenario S2 and witnesses) -/

/-- A dependency-free pending feature. -/
def feat1 : Feature :=
  { id := 1, priority := 1, dependencies := [], passes := false, in_progress := false }

/-- Scenario S2 start: one feature, `max_concurrency = 1`. -/
def scnState0 : OrchState := OrchState.mkInit [feat1] 1 0 false

/-- One S2 round: the scheduler starts the single feature's coding agent and
the agent exits with code 1. -/
def scnRound (st : OrchState) : OrchState :=
  on_coding_agent_complete (start_feature st 1 false true).2 1 1

/-- The state after the agent has exited 1 three times in a row. -/
def scnFinal : OrchState := scnRound (scnRound (scnRound scnState0))

/-- A reachable state with one live coding agent (used to exhibit what
`stop_all` leaves behind). -/
def oneAgentState : OrchState :=
  (start_feature (OrchState.mkInit [feat1] 3 1 false) 1 false true).2

/-! ## Helper lemmas -/

lemma length_assocSet_le {α : Type} (l : List (Nat × α)) (k : Nat) (v : α) :
    (assocSet l k v).length ≤ l.length + 1 := by
  induction l with
  | nil => simp [assocSet]
  | cons h t ih =>
    simp only [assocSet]
    split
    · simp
    · simpa using Nat.succ_le_succ ih

lemma mkInit_poolInv (features0 : List Feature) (mc ratio : Int) (yolo : Bool) :
    PoolInv (OrchState.mkInit features0 mc ratio yolo) := by
  unfold PoolInv OrchState.mkInit MAX_TOTAL_AGENTS MAX_PARALLEL_AGENTS
  simp only [List.length_nil]
  omega

/-- How `start_feature` can change the pools: either a refusal path leaves the
state unchanged, or the spawn succeeded, the admission guards held, and exactly
the one feature id was added to the coding pool. -/
lemma start_feature_pools (st : OrchState) (fid : Nat) (resume spawnOk : Bool) :
    ((start_feature st fid resume spawnOk).2.running_coding_agents = st.running_coding_agents ∨
      ((start_feature st fid resume spawnOk).2.running_coding_agents = fid :: st.running_coding_agents ∧
        st.running_coding_agents.length < st.max_concurrency ∧
        st.running_coding_agents.length + st.running_testing_agents.length < MAX_TOTAL_AGENTS)) ∧
    (start_feature st fid resume spawnOk).2.running_testing_agents = st.running_testing_agents ∧
    (start_feature st fid resume spawnOk).2.max_concurrency = st.max_concurrency ∧
    (start_feature st fid resume spawnOk).2.testing_agent_ratio = st.testing_agent_ratio := by
  unfold start_feature spawn_coding_agent
  repeat' split
  all_goals simp_all

lemma start_feature_preserves_poolInv (st : OrchState) (fid : Nat) (resume spawnOk : Bool)
    (h : PoolInv st) : PoolInv (start_feature st fid resume spawnOk).2 := by
  obtain ⟨hc, ht, hmc, hr⟩ := start_feature_pools st fid resume spawnOk
  obtain ⟨h1, h2, h3, h4, h5, h6, h7⟩ := h
  unfold PoolInv
  rcases hc with hc | ⟨hc, hlt, htot⟩ <;> rw [hc, ht, hmc, hr] <;>
    refine ⟨?_, ?_, ?_, ?_, ?_, ?_, ?_⟩ <;> (try simp only [List.length_cons]) <;> omega

/-- How `_spawn_testing_agent` can change the pools: either a refusal leaves
the state unchanged, or the guards held and the testing pool grew by at most
one entry. -/
lemma spawn_testing_pools (st : OrchState) (o : TestingOracle) :
    (spawn_testing_agent st o).2.running_coding_agents = st.running_coding_agents ∧
    (spawn_testing_agent st o).2.max_concurrency = st.max_concurrency ∧
    (spawn_testing_agent st o).2.testing_agent_ratio = st.testing_agent_ratio ∧
    ((spawn_testing_agent st o).2.running_testing_agents = st.running_testing_agents ∨
      ((spawn_testing_agent st o).2.running_testing_agents.length ≤ st.running_testing_agents.length + 1 ∧
        st.running_testing_agents.length < st.max_concurrency ∧
        st.running_coding_agents.length + st.running_testing_agents.length < MAX_TOTAL_AGENTS)) := by
  unfold spawn_testing_agent
  repeat' split
  all_goals simp_all [length_assocSet_le]

lemma spawn_testing_preserves_poolInv (st : OrchState) (o : TestingOracle)
    (h : PoolInv st) (hr : st.running_testing_agents.length < st.testing_agent_ratio) :
    PoolInv (spawn_testing_agent st o).2 := by
  obtain ⟨hc, hmc, hra, ht⟩ := spawn_testing_pools st o
  obtain ⟨h1, h2, h3, h4, h5, h6, h7⟩ := h
  unfold PoolInv
  rcases ht with ht | ⟨ht, hlt, htot⟩ <;> rw [hc, hmc, hra] <;>
    refine ⟨?_, ?_, ?_, ?_, ?_, ?_, ?_⟩ <;> first | (rw [ht]; omega) | omega

lemma maintainLoop_preserves_poolInv (oracle : List TestingOracle) :
    ∀ st : OrchState, PoolInv st → PoolInv (maintainLoop st oracle) := by
  induction oracle with
  | nil => intro st h; exact h
  | cons o rest ih =>
    intro st h
    unfold maintainLoop
    split
    · exact h
    · split
      · exact h
      · rename_i hratio htot
        have hr : st.running_testing_agents.length < st.testing_agent_ratio := by omega
        have h2 := spawn_testing_preserves_poolInv st o h hr
        split
        · exact ih _ h2
        · exact h2

lemma maintain_preserves_poolInv (st : OrchState) (oracle : List TestingOracle)
    (h : PoolInv st) : PoolInv (maintain_testing_agents st oracle) := by
  unfold maintain_testing_agents
  repeat' split
  all_goals first
    | exact h
    | exact maintainLoop_preserves_poolInv oracle st h

lemma on_coding_complete_pools (st : OrchState) (fid : Nat) (return_code : Int) :
    (on_coding_agent_complete st fid return_code).running_coding_agents.length ≤
      st.running_coding_agents.length ∧
    (on_coding_agent_complete st fid return_code).running_testing_agents = st.running_testing_agents ∧
    (on_coding_agent_complete st fid return_code).max_concurrency = st.max_concurrency ∧
    (on_coding_agent_complete st fid return_code).testing_agent_ratio = st.testing_agent_ratio := by
  unfold on_coding_agent_complete signalAgentCompleted recordFailure clearStaleInProgress poolRemoveCoding
  repeat' split
  all_goals simp_all [List.length_filter_le]

lemma on_coding_complete_preserves_poolInv (st : OrchState) (fid : Nat) (return_code : Int)
    (h : PoolInv st) : PoolInv (on_coding_agent_complete st fid return_code) := by
  obtain ⟨hc, ht, hmc, hra⟩ := on_coding_complete_pools st fid return_code
  obtain ⟨h1, h2, h3, h4, h5, h6, h7⟩ := h
  unfold PoolInv
  rw [ht, hmc, hra]
  refine ⟨?_, ?_, ?_, ?_, ?_, ?_, ?_⟩ <;> omega

lemma on_testing_complete_pools (st : OrchState) (pid : Nat) :
    (on_testing_agent_complete st pid).running_coding_agents = st.running_coding_agents ∧
    (on_testing_agent_complete st pid).running_testing_agents.length ≤
      st.running_testing_agents.length ∧
    (on_testing_agent_complete st pid).max_concurrency = st.max_concurrency ∧
    (on_testing_agent_complete st pid).testing_agent_ratio = st.testing_agent_ratio := by
  unfold on_testing_agent_complete signalAgentCompleted
  simp [List.length_filter_le]

lemma on_testing_complete_preserves_poolInv (st : OrchState) (pid : Nat)
    (h : PoolInv st) : PoolInv (on_testing_agent_complete st pid) := by
  obtain ⟨hc, ht, hmc, hra⟩ := on_testing_complete_pools st pid
  obtain ⟨h1, h2, h3, h4, h5, h6, h7⟩ := h
  unfold PoolInv
  rw [hc, hmc, hra]
  refine ⟨?_, ?_, ?_, ?_, ?_, ?_, ?_⟩ <;> omega

lemma stop_feature_state (st : OrchState) (fid : Nat) : (stop_feature st fid).2 = st := by
  unfold stop_feature
  split <;> rfl

lemma foldl_stop_feature (l : List Nat) (s : OrchState) :
    l.foldl (fun s2 fid => (stop_feature s2 fid).2) s = s := by
  induction l generalizing s with
  | nil => rfl
  | cons h t ih =>
    rw [List.foldl_cons, stop_feature_state]
    exact ih s

/-- `stop_all` only clears `is_running` and the testing pool; the coding pool
is untouched (its entries are removed later by the completion handlers). -/
lemma stop_all_eq (st : OrchState) :
    stop_all st = { st with is_running := false, running_testing_agents := [] } := by
  unfold stop_all stopAllCodingPhase
  rw [foldl_stop_feature]

lemma stop_all_preserves_poolInv (st : OrchState) (h : PoolInv st) : PoolInv (stop_all st) := by
  rw [stop_all_eq]
  obtain ⟨h1, h2, h3, h4, h5, h6, h7⟩ := h
  exact ⟨by simpa using h1, by simp, by simp, by simpa using by omega, h5, h6, h7⟩

lemma step_preserves_poolInv {st st2 : OrchState} (hs : Step st st2) (h : PoolInv st) :
    PoolInv st2 := by
  cases hs with
  | start fid resume spawnOk => exact start_feature_preserves_poolInv st fid resume spawnOk h
  | maintain oracle => exact maintain_preserves_poolInv st oracle h
  | codingComplete fid rc => exact on_coding_complete_preserves_poolInv st fid rc h
  | testingComplete pid => exact on_testing_complete_preserves_poolInv st pid h
  | stopOne fid => rw [stop_feature_state]; exact h
  | stopEverything => exact stop_all_preserves_poolInv st h
  | envCatalogWrite features2 => exact h
  | clearEvent => exact h
  | setRunning => exact h

/-- Every reachable orchestrator state satisfies the capacity invariant. -/
lemma reachable_poolInv {st : OrchState} (h : Reachable st) : PoolInv st := by
  induction h with
  | init features0 mc ratio yolo => exact mkInit_poolInv features0 mc ratio yolo
  | step st st2 hr hs ih => exact step_preserves_poolInv hs ih

/-! ## Order lemmas for the scheduling key -/

lemma keyLe_trans (a b c : Int × Int × Int) (hab : keyLe a b) (hbc : keyLe b c) : keyLe a c := by
  rcases a with ⟨a1, a2, a3⟩
  rcases b with ⟨b1, b2, b3⟩
  rcases c with ⟨c1, c2, c3⟩
  simp only [keyLe, Bool.or_eq_true, Bool.and_eq_true, decide_eq_true_eq, beq_iff_eq] at *
  omega

lemma keyLe_total (a b : Int × Int × Int) : keyLe a b || keyLe b a := by
  rcases a with ⟨a1, a2, a3⟩
  rcases b with ⟨b1, b2, b3⟩
  simp only [keyLe, Bool.or_eq_true, Bool.and_eq_true, decide_eq_true_eq, beq_iff_eq]
  omega

lemma schedLe_trans (scores : List (Nat × Int)) (f g h : Feature)
    (hfg : schedLe scores f g) (hgh : schedLe scores g h) : schedLe scores f h :=
  keyLe_trans _ _ _ hfg hgh

lemma schedLe_total (scores : List (Nat × Int)) (f g : Feature) :
    schedLe scores f g || schedLe scores g f :=
  keyLe_total _ _

/-- The sort used by the readiness queries produces a list that is sorted
ascending by the `(-score, priority, id)` key. -/
lemma sorted_sortBySchedKey (scores : List (Nat × Int)) (l : List Feature) :
    (sortBySchedKey scores l).Pairwise (fun f g => schedLe scores f g = true) :=
  List.sorted_mergeSort (schedLe_trans scores) (schedLe_total scores) l

lemma mem_sortBySchedKey {scores : List (Nat × Int)} {l : List Feature} {f : Feature} :
    f ∈ sortBySchedKey scores l ↔ f ∈ l :=
  List.mem_mergeSort

lemma length_sortBySchedKey (scores : List (Nat × Int)) (l : List Feature) :
    (sortBySchedKey scores l).length = l.length :=
  List.length_mergeSort l

/-! ## Membership in the readiness queries -/

lemma mem_readyFilter {st : OrchState} {f : Feature} :
    f ∈ readyFilter st ↔
      f ∈ st.features ∧ f.passes = false ∧ f.in_progress = false ∧
      failureCount st f.id < MAX_FEATURE_RETRIES ∧
      ¬ f.id ∈ st.running_coding_agents ∧
      ∀ d ∈ f.dependencies, d ∈ passingIds st.features := by
  simp only [readyFilter, are_dependencies_satisfied, List.mem_filter, Bool.and_eq_true,
    Bool.not_eq_true', decide_eq_true_eq, List.all_eq_true, List.contains, List.elem_eq_mem,
    decide_eq_false_iff_not, decide_eq_true_eq]
  tauto

lemma mem_resumableFilter {st : OrchState} {f : Feature} :
    f ∈ resumableFilter st ↔
      f ∈ st.features ∧ f.in_progress = true ∧ f.passes = false ∧
      failureCount st f.id < MAX_FEATURE_RETRIES ∧
      ¬ f.id ∈ st.running_coding_agents := by
  simp only [resumableFilter, List.mem_filter, Bool.and_eq_true, Bool.not_eq_true',
    decide_eq_true_eq, List.contains, List.elem_eq_mem, decide_eq_false_iff_not]
  tauto

/-! ## Update lemmas -/

lemma lookup_assocSet_self {α : Type} (l : List (Nat × α)) (k : Nat) (v : α) :
    (assocSet l k v).lookup k = some v := by
  induction l with
  | nil => simp [assocSet, List.lookup]
  | cons hd t ih =>
    obtain ⟨k2, v2⟩ := hd
    by_cases hk : k2 = k
    · subst hk
      simp [assocSet, List.lookup]
    · have h1 : (k2 == k) = false := by simpa using hk
      have h2 : (k == k2) = false := by simpa using fun e => hk e.symm
      simp [assocSet, h1, List.lookup, h2, ih]

lemma find?_updateFirst {α : Type} (p : α → Bool) (g : α → α)
    (hp : ∀ a, p a = true → p (g a) = true) (l : List α) :
    (updateFirst p g l).find? p = (l.find? p).map g := by
  induction l with
  | nil => rfl
  | cons x xs ih =>
    by_cases hx : p x
    · rw [updateFirst, if_pos hx, List.find?_cons_of_pos _ (hp x hx),
        List.find?_cons_of_pos _ hx, Option.map_some']
    · rw [updateFirst, if_neg hx, List.find?_cons_of_neg _ hx,
        List.find?_cons_of_neg _ hx, ih]

/-- After `clearStaleInProgress`, the feature is no longer a stale claim. -/
lemma staleInProgress_clearStale (st : OrchState) (fid : Nat) :
    staleInProgress (clearStaleInProgress st fid) fid = false := by
  unfold staleInProgress clearStaleInProgress setInProgressFirst
  cases hf : st.features.find? (fun f => f.id == fid) with
  | none => simp [hf]
  | some f =>
    by_cases hs : (f.in_progress && !f.passes) = true
    · simp only [hf, hs, if_true]
      rw [find?_updateFirst (fun g : Feature => g.id == fid)
        (fun g => { g with in_progress := false }) (fun a ha => ha) st.features, hf]
      rfl
    · simp [hf, hs]

lemma find?_setInProgressFirst (features : List Feature) (fid : Nat) (b : Bool) :
    (setInProgressFirst features fid b).find? (fun g => g.id == fid) =
      (features.find? (fun g => g.id == fid)).map (fun g => { g with in_progress := b }) := by
  unfold setInProgressFirst
  exact find?_updateFirst (fun g : Feature => g.id == fid)
    (fun g => { g with in_progress := b }) (fun a ha => ha) features

/-! ## Field-preservation lemmas for the completion handler's atomic actions -/

lemma staleInProgress_eq_of_features {st st2 : OrchState} (fid : Nat)
    (h : st2.features = st.features) : staleInProgress st2 fid = staleInProgress st fid := by
  unfold staleInProgress
  rw [h]

lemma clearStale_event (st : OrchState) (fid : Nat) :
    (clearStaleInProgress st fid).agent_completed_event = st.agent_completed_event := by
  unfold clearStaleInProgress
  repeat' split
  all_goals rfl

lemma clearStale_failure_counts (st : OrchState) (fid : Nat) :
    (clearStaleInProgress st fid).failure_counts = st.failure_counts := by
  unfold clearStaleInProgress
  repeat' split
  all_goals rfl

lemma clearStale_coding_pool (st : OrchState) (fid : Nat) :
    (clearStaleInProgress st fid).running_coding_agents = st.running_coding_agents := by
  unfold clearStaleInProgress
  repeat' split
  all_goals rfl

lemma recordFailure_features (st : OrchState) (fid : Nat) (rc : Int) :
    (recordFailure st fid rc).features = st.features := by
  unfold recordFailure
  split <;> rfl

lemma recordFailure_event (st : OrchState) (fid : Nat) (rc : Int) :
    (recordFailure st fid rc).agent_completed_event = st.agent_completed_event := by
  unfold recordFailure
  split <;> rfl

lemma recordFailure_coding_pool (st : OrchState) (fid : Nat) (rc : Int) :
    (recordFailure st fid rc).running_coding_agents = st.running_coding_agents := by
  unfold recordFailure
  split <;> rfl

/-- The coding-agent completion handler removes exactly the finished feature's
entry from the coding pool. -/
lemma on_coding_complete_coding_pool (st : OrchState) (fid : Nat) (rc : Int) :
    (on_coding_agent_complete st fid rc).running_coding_agents =
      st.running_coding_agents.filter (fun i => !(i == fid)) := by
  unfold on_coding_agent_complete signalAgentCompleted
  rw [recordFailure_coding_pool, clearStale_coding_pool]
  rfl

/-- A non-zero exit code bumps the feature's failure count by exactly one. -/
lemma failureCount_on_coding_complete (st : OrchState) (fid : Nat) (rc : Int) (h : rc ≠ 0) :
    failureCount (on_coding_agent_complete st fid rc) fid = failureCount st fid + 1 := by
  unfold on_coding_agent_complete signalAgentCompleted
  unfold failureCount
  show ((recordFailure (clearStaleInProgress (poolRemoveCoding st fid) fid) fid rc).failure_counts.lookup fid).getD 0 = _
  unfold recordFailure
  rw [if_pos h]
  show ((assocSet (clearStaleInProgress (poolRemoveCoding st fid) fid).failure_counts fid _).lookup fid).getD 0 = _
  rw [lookup_assocSet_self]
  show failureCount (clearStaleInProgress (poolRemoveCoding st fid) fid) fid + 1 = _
  unfold failureCount
  rw [clearStale_failure_counts]
  rfl

/-- Any refusal branch of `start_feature`: error result and unchanged state. -/
lemma start_feature_refuses (st : OrchState) (fid : Nat) (resume spawnOk : Bool)
    (h : st.max_concurrency ≤ st.running_coding_agents.length ∨
         MAX_TOTAL_AGENTS ≤ st.running_coding_agents.length + st.running_testing_agents.length) :
    (start_feature st fid resume spawnOk).1.1 = false ∧
    (start_feature st fid resume spawnOk).2 = st := by
  unfold start_feature
  split
  · exact ⟨rfl, rfl⟩
  · split
    · exact ⟨rfl, rfl⟩
    · split
      · exact ⟨rfl, rfl⟩
      · rename_i hmc htot
        rcases h with h | h <;> omega

lemma staleInProgress_signal (st : OrchState) (fid : Nat) :
    staleInProgress (signalAgentCompleted st) fid = staleInProgress st fid := rfl

lemma staleInProgress_recordFailure (st : OrchState) (fid fid2 : Nat) (rc : Int) :
    staleInProgress (recordFailure st fid2 rc) fid = staleInProgress st fid :=
  staleInProgress_eq_of_features fid (recordFailure_features st fid2 rc)

/-! # The claims -/

/-- Claim C1: every feature returned by `get_ready_features` satisfies
`¬passes ∧ ¬in_progress ∧ retries(id) < MAX_FEATURE_RETRIES ∧ id not in the
coding pool ∧ every dependency id in passing_ids`, and the returned list is
sorted ascending by the key `(−score[id], priority, id)`. -/
theorem ready_features_sound_and_sorted (scores : List (Nat × Int)) (st : OrchState) :
    (∀ f ∈ get_ready_features scores st,
       f.passes = false ∧ f.in_progress = false ∧
       failureCount st f.id < MAX_FEATURE_RETRIES ∧
       ¬ f.id ∈ st.running_coding_agents ∧
       ∀ d ∈ f.dependencies, d ∈ passingIds st.features) ∧
    (get_ready_features scores st).Pairwise (fun f g => schedLe scores f g = true) := by
  constructor
  · intro f hf
    unfold get_ready_features at hf
    rw [mem_sortBySchedKey] at hf
    have h := mem_readyFilter.mp hf
    tauto
  · exact sorted_sortBySchedKey scores (readyFilter st)

theorem ready_features_sound_and_sorted_witness :
    (get_ready_features [] scnState0).Pairwise (fun f g => schedLe [] f g = true) :=
  (ready_features_sound_and_sorted [] scnState0).2

/-- Claim C2: in every reachable state, `|coding_pool| ≤ max_concurrency` and
`|coding_pool| + |testing_pool| ≤ MAX_TOTAL_AGENTS`; and whenever either bound
would be exceeded, `start_feature` refuses admission, returning an error with
no state change. -/
theorem pool_capacity_invariant (st : OrchState) (h : Reachable st) :
    (st.running_coding_agents.length ≤ st.max_concurrency ∧
     st.running_coding_agents.length + st.running_testing_agents.length ≤ MAX_TOTAL_AGENTS) ∧
    (∀ (fid : Nat) (resume spawnOk : Bool),
       (st.max_concurrency ≤ st.running_coding_agents.length ∨
        MAX_TOTAL_AGENTS ≤ st.running_coding_agents.length + st.running_testing_agents.length) →
       (start_feature st fid resume spawnOk).1.1 = false ∧
       (start_feature st fid resume spawnOk).2 = st) := by
  obtain ⟨h1, h2, h3, h4, h5, h6, h7⟩ := reachable_poolInv h
  exact ⟨⟨h1, h4⟩, fun fid resume spawnOk hb => start_feature_refuses st fid resume spawnOk hb⟩

theorem pool_capacity_invariant_witness :
    (OrchState.mkInit [feat1] 3 1 false).running_coding_agents.length ≤
      (OrchState.mkInit [feat1] 3 1 false).max_concurrency ∧
    (OrchState.mkInit [feat1] 3 1 false).running_coding_agents.length +
      (OrchState.mkInit [feat1] 3 1 false).running_testing_agents.length ≤ MAX_TOTAL_AGENTS :=
  (pool_capacity_invariant (OrchState.mkInit [feat1] 3 1 false)
    (Reachable.init [feat1] 3 1 false)).1

/-- Claim C3: a coding-agent completion with non-zero exit code increments the
feature's retry counter by exactly one; a feature whose counter has reached
`MAX_FEATURE_RETRIES` is excluded from the ready and resumable sets; and in
the one-feature scenario S2 (three non-zero exits in a row with
`max_concurrency = 1`), after the third failure `get_all_complete` is true and
both queues are empty, so no fourth spawn occurs. -/
theorem retry_cap_accounting (st : OrchState) (fid : Nat) (rc : Int) :
    (rc ≠ 0 → failureCount (on_coding_agent_complete st fid rc) fid = failureCount st fid + 1) ∧
    (MAX_FEATURE_RETRIES ≤ failureCount st fid →
       (∀ scores, ∀ f ∈ get_ready_features scores st, f.id ≠ fid) ∧
       (∀ scores, ∀ f ∈ get_resumable_features scores st, f.id ≠ fid)) ∧
    (get_all_complete scnFinal = true ∧
     get_ready_features [] scnFinal = [] ∧
     get_resumable_features [] scnFinal = [] ∧
     failureCount scnFinal 1 = MAX_FEATURE_RETRIES) := by
  refine ⟨fun h => failureCount_on_coding_complete st fid rc h, fun hmax => ⟨?_, ?_⟩,
    by decide, ?_, ?_, by decide⟩
  · intro scores f hf heq
    unfold get_ready_features at hf
    rw [mem_sortBySchedKey] at hf
    have h := (mem_readyFilter.mp hf).2.2.2.1
    rw [heq] at h
    omega
  · intro scores f hf heq
    unfold get_resumable_features at hf
    rw [mem_sortBySchedKey] at hf
    have h := (mem_resumableFilter.mp hf).2.2.2.1
    rw [heq] at h
    omega
  · unfold get_ready_features sortBySchedKey
    rw [show readyFilter scnFinal = [] from by decide, List.mergeSort_nil]
  · unfold get_resumable_features sortBySchedKey
    rw [show resumableFilter scnFinal = [] from by decide, List.mergeSort_nil]

theorem retry_cap_accounting_witness :
    failureCount (on_coding_agent_complete scnState0 1 1) 1 = failureCount scnState0 1 + 1 :=
  (retry_cap_accounting scnState0 1 1).1 (by decide)

/-- Claim C4 as stated is false: `stop_all` clears the testing pool but leaves
the coding-pool entries in place (they are removed only when each agent's
completion handler runs), so after `stop_all()` returns the coding pool need
not be empty. -/
theorem stop_all_pools_counterexample :
    ¬ ((stop_all oneAgentState).running_coding_agents = [] ∧
       (stop_all oneAgentState).running_testing_agents = []) := by decide

/-- Claim C4 (amended): after `stop_all()` returns, the testing pool is empty
and `is_running` is false (so the scheduler loop starts no further agents);
the coding pool is unchanged, and each coding agent's completion handler
subsequently removes exactly its own entry. -/
theorem stop_all_amended (st : OrchState) :
    (stop_all st).running_testing_agents = [] ∧
    (stop_all st).is_running = false ∧
    (stop_all st).running_coding_agents = st.running_coding_agents ∧
    ∀ (fid : Nat) (rc : Int),
      (on_coding_agent_complete (stop_all st) fid rc).running_coding_agents =
        (stop_all st).running_coding_agents.filter (fun i => !(i == fid)) := by
  rw [stop_all_eq]
  exact ⟨rfl, rfl, rfl, fun fid rc => on_coding_complete_coding_pool _ fid rc⟩

theorem stop_all_amended_witness :
    (stop_all oneAgentState).running_testing_agents = [] ∧
    (stop_all oneAgentState).is_running = false :=
  ⟨(stop_all_amended oneAgentState).1, (stop_all_amended oneAgentState).2.1⟩

/-- Claim C5: when a coding agent exits, the completion handler clears a stale
`in_progress ∧ ¬passes` claim, and the clearing happens before the completion
event is signaled: in the sequence of states the handler passes through
(starting with the event clear, as the scheduler leaves it), every state in
which the event is set already has the stale claim cleared. -/
theorem inprogress_cleared_before_signal (st : OrchState) (fid : Nat) (rc : Int)
    (hev : st.agent_completed_event = false) :
    staleInProgress (on_coding_agent_complete st fid rc) fid = false ∧
    ∀ s ∈ onCodingCompleteStates st fid rc,
      s.agent_completed_event = true → staleInProgress s fid = false := by
  have h2 : staleInProgress (clearStaleInProgress (poolRemoveCoding st fid) fid) fid = false :=
    staleInProgress_clearStale (poolRemoveCoding st fid) fid
  have h3 : staleInProgress
      (recordFailure (clearStaleInProgress (poolRemoveCoding st fid) fid) fid rc) fid = false := by
    rw [staleInProgress_recordFailure]
    exact h2
  have h4 : staleInProgress (on_coding_agent_complete st fid rc) fid = false := by
    unfold on_coding_agent_complete
    rw [staleInProgress_signal]
    exact h3
  refine ⟨h4, ?_⟩
  intro s hs hset
  simp only [onCodingCompleteStates, List.mem_cons, List.not_mem_nil, or_false] at hs
  rcases hs with rfl | rfl | rfl | rfl | rfl
  · rw [hev] at hset
    cases hset
  · rw [show (poolRemoveCoding st fid).agent_completed_event = st.agent_completed_event from rfl,
      hev] at hset
    cases hset
  · rw [clearStale_event,
      show (poolRemoveCoding st fid).agent_completed_event = st.agent_completed_event from rfl,
      hev] at hset
    cases hset
  · rw [recordFailure_event, clearStale_event,
      show (poolRemoveCoding st fid).agent_completed_event = st.agent_completed_event from rfl,
      hev] at hset
    cases hset
  · exact h4

theorem inprogress_cleared_before_signal_witness :
    staleInProgress (on_coding_agent_complete (start_feature scnState0 1 false true).2 1 1) 1 =
      false :=
  (inprogress_cleared_before_signal (start_feature scnState0 1 false true).2 1 1 (by decide)).1

/-- Claim C6: if the OS refuses to spawn the coding-agent subprocess,
`start_feature` returns an error, the claim is released (`in_progress` is
cleared on that feature), and the retry counter is untouched. -/
theorem spawn_failure_releases_claim (st : OrchState) (fid : Nat) (f : Feature)
    (hfind : st.features.find? (fun g => g.id == fid) = some f)
    (hpass : f.passes = false) (hip : f.in_progress = false)
    (hnotrun : st.running_coding_agents.contains fid = false)
    (hcap : st.running_coding_agents.length < st.max_concurrency)
    (htot : st.running_coding_agents.length + st.running_testing_agents.length <
      MAX_TOTAL_AGENTS) :
    (start_feature st fid false false).1.1 = false ∧
    ((start_feature st fid false false).2.features.find? (fun g => g.id == fid)).map
      Feature.in_progress = some false ∧
    (start_feature st fid false false).2.failure_counts = st.failure_counts := by
  unfold start_feature
  rw [if_neg (by rw [hnotrun]; exact Bool.false_ne_true), if_neg (by omega), if_neg (by omega)]
  split
  · rename_i hnone
    rw [hfind] at hnone
    cases hnone
  · rename_i feature hfeat
    rw [hfind] at hfeat
    obtain rfl : f = feature := Option.some.inj hfeat
    rw [if_neg (by simp [hpass]), if_neg (by simp), if_neg (by simp [hip])]
    unfold spawn_coding_agent
    rw [if_pos (show (!false) = true from rfl)]
    refine ⟨rfl, ?_, rfl⟩
    simp only [find?_setInProgressFirst, hfind, Option.map_map, Option.map_some']

theorem spawn_failure_releases_claim_witness :
    (start_feature scnState0 1 false false).1.1 = false ∧
    ((start_feature scnState0 1 false false).2.features.find? (fun g => g.id == 1)).map
      Feature.in_progress = some false ∧
    (start_feature scnState0 1 false false).2.failure_counts = scnState0.failure_counts :=
  spawn_failure_releases_claim scnState0 1 feat1 (by decide) (by decide) (by decide)
    (by decide) (by decide) (by decide)

/-- Claim C7: in every reachable state, `|testing_pool|` is at most
`testing_agent_ratio` (which the constructor clamps to `0..3`) and at most
`max_concurrency`; with `testing_agent_ratio = 0` the testing pool is always
empty. -/
theorem testing_pool_bounds (st : OrchState) (h : Reachable st) :
    st.running_testing_agents.length ≤ st.testing_agent_ratio ∧
    st.testing_agent_ratio ≤ 3 ∧
    st.running_testing_agents.length ≤ st.max_concurrency ∧
    (st.testing_agent_ratio = 0 → st.running_testing_agents.length = 0) := by
  obtain ⟨h1, h2, h3, h4, h5, h6, h7⟩ := reachable_poolInv h
  exact ⟨h2, h5, h3, fun hz => by omega⟩

theorem testing_pool_bounds_witness :
    (OrchState.mkInit [feat1] 3 0 false).running_testing_agents.length ≤
      (OrchState.mkInit [feat1] 3 0 false).testing_agent_ratio ∧
    (OrchState.mkInit [feat1] 3 0 false).testing_agent_ratio ≤ 3 ∧
    (OrchState.mkInit [feat1] 3 0 false).running_testing_agents.length ≤
      (OrchState.mkInit [feat1] 3 0 false).max_concurrency ∧
    ((OrchState.mkInit [feat1] 3 0 false).testing_agent_ratio = 0 →
      (OrchState.mkInit [feat1] 3 0 false).running_testing_agents.length = 0) :=
  testing_pool_bounds (OrchState.mkInit [feat1] 3 0 false) (Reachable.init [feat1] 3 0 false)

/-- Claim C8 as stated is false on the code: the spec's spawn discipline
("spawn I/O outside the lock, then insert under the lock with a capacity
re-check") fails for both spawn paths — the coding path's insert section
re-checks nothing, and the testing path performs `Popen` while holding the
lock. -/
theorem spawn_discipline_counterexample :
    specSpawnDiscipline codingSpawnEvents = false ∧
    specSpawnDiscipline testingSpawnEvents = false := by decide

/-- Claim C8 (amended): the coding path performs spawn I/O outside the lock
and inserts under the lock, but its insert section performs no capacity
re-check; the testing path re-checks a capacity bound before inserting and
inserts under the lock, but performs its spawn I/O while holding the lock. -/
theorem spawn_discipline_actual :
    spawnOutsideLock codingSpawnEvents = true ∧
    insertUnderLock codingSpawnEvents = true ∧
    reCheckBeforeInsert codingSpawnEvents = false ∧
    reCheckBeforeInsert testingSpawnEvents = true ∧
    insertUnderLock testingSpawnEvents = true ∧
    spawnOutsideLock testingSpawnEvents = false := by decide

/-- Claim C9: with an empty catalog `get_all_complete` returns false (the
empty catalog means initialization is needed), even though the pending-feature
count is (vacuously) zero. -/
theorem empty_catalog_not_complete (st : OrchState) (h : st.features = []) :
    get_all_complete st = false ∧
    st.features.countP (fun f =>
      !f.passes && decide (failureCount st f.id < MAX_FEATURE_RETRIES)) = 0 := by
  simp [get_all_complete, h]

theorem empty_catalog_not_complete_witness :
    get_all_complete (OrchState.mkInit [] 3 1 false) = false :=
  (empty_catalog_not_complete (OrchState.mkInit [] 3 1 false) rfl).1

/-- Claim C10: the readiness sorts are total even when the score map omits an
id — a feature missing from the map gets sort key `(0, priority, id)` (the
`.get(id, 0)` default), and `get_ready_features` / `get_resumable_features`
return exactly the filtered features (nothing is dropped and no lookup can
fail) for every score map. -/
theorem missing_score_defaults (scores : List (Nat × Int)) (st : OrchState) :
    (∀ f : Feature, scores.lookup f.id = none →
       schedKey scores f = (0, f.priority, (f.id : Int))) ∧
    (∀ f : Feature, f ∈ get_ready_features scores st ↔ f ∈ readyFilter st) ∧
    (∀ f : Feature, f ∈ get_resumable_features scores st ↔ f ∈ resumableFilter st) ∧
    (get_ready_features scores st).length = (readyFilter st).length ∧
    (get_resumable_features scores st).length = (resumableFilter st).length := by
  refine ⟨?_, fun f => mem_sortBySchedKey, fun f => mem_sortBySchedKey,
    length_sortBySchedKey scores (readyFilter st),
    length_sortBySchedKey scores (resumableFilter st)⟩
  intro f hf
  simp [schedKey, scoreOf, hf]

theorem missing_score_defaults_witness :
    schedKey [] feat1 = (0, feat1.priority, (feat1.id : Int)) :=
  (missing_score_defaults [] scnState0).1 feat1 rfl

end ParallelOrchestrator
